import Mathlib

/-!
Shallow embedding of the hybrid retrieval engine of the
Medical-Guideline-Assistant repository (`src/src/retrieval_system.py`,
data model in `src/src/models.py`), together with theorems settling the
specification claims about it.

Modelling conventions:
* Python floats are modelled as exact rationals (ℚ); the claims under
  study are about ordering, blending formulas and list structure, not
  float rounding.
* `hash(content[:100])` is used in the source only as a set-membership
  key; it is modelled by the 100-character prefix itself (the spec's
  "fingerprint of the first 100 characters").
* External capabilities (sentence embedding, Pinecone match scoring,
  BM25 scoring, cross-encoder reranking, the hash fallback for vector
  ids) are opaque function parameters collected in a `Backend` record,
  matching the spec's treatment of them as opaque functions.
* Python `datetime` values are modelled by their ISO-8601 string
  (`isoformat`/`fromisoformat` are mutually inverse, so the round trip
  through the string is the identity).
-/

set_option maxRecDepth 8192

namespace MedGuide

/-- Patient population types (`PopulationType` in `src/src/models.py`). -/
inductive PopulationType where
  | adult
  | pediatric
  | elderly
  | pregnant
  | general
deriving DecidableEq, Repr

/-- The string value of a population enum member (`str`-valued `Enum`). -/
def PopulationType.value : PopulationType → String
  | .adult => "adult"
  | .pediatric => "pediatric"
  | .elderly => "elderly"
  | .pregnant => "pregnant"
  | .general => "general"

/-- Parsing a population tag string back to the enum (pydantic coercion
of a string into the `PopulationType` field). -/
def PopulationType.ofValue (s : String) : Option PopulationType :=
  if s = "adult" then some .adult
  else if s = "pediatric" then some .pediatric
  else if s = "elderly" then some .elderly
  else if s = "pregnant" then some .pregnant
  else if s = "general" then some .general
  else none

/-- A langchain `Document` as the retrieval pipeline sees it: its text and
the metadata fields the pipeline reads (`population` may be absent from the
metadata dict, hence `Option`; the remaining metadata fields are never
inspected by the pipeline stages under study). -/
structure Doc where
  page_content : String
  population : Option String
  chunk_id : String
deriving DecidableEq, Repr

/-- `QueryAnalysis` restricted to the fields the retrieval system reads. -/
structure QueryAnalysis where
  original_query : String
  population : Option PopulationType
deriving DecidableEq, Repr

/-- `RetrievedDocument` as produced by `MedicalRetrievalSystem.retrieve`. -/
structure RetrievedDocument where
  content : String
  population : Option String
  relevance_score : ℚ
  rerank_score : Option ℚ
deriving DecidableEq, Repr

/-- `hash(doc.page_content[:100])` modelled by the prefix itself. -/
def fingerprint (d : Doc) : String := d.page_content.take 100

/-- One pass of the dedup loop in `_combine_results`: walk the candidates,
skip those whose fingerprint is in `seen`, append new fingerprints to the
seen set, and tag kept candidates with their origin. Returns the final
seen set and the kept (tagged) candidates, in order. -/
def addCandidates (tag : String) :
    List (Doc × ℚ) → List String → List String × List (Doc × ℚ × String)
  | [], seen => (seen, [])
  | (doc, score) :: rest, seen =>
    let fp := fingerprint doc
    if fp ∈ seen then addCandidates tag rest seen
    else
      let r := addCandidates tag rest (fp :: seen)
      (r.1, (doc, score, tag) :: r.2)

/-- `MedicalRetrievalSystem._combine_results`: dense candidates first,
then sparse, sharing one seen-fingerprint set. -/
def combineResults (dense sparse : List (Doc × ℚ)) : List (Doc × ℚ × String) :=
  let d := addCandidates "dense" dense []
  let s := addCandidates "sparse" sparse d.1
  d.2 ++ s.2

/-- Tag every candidate of a list with an origin label. -/
def tagWith (tag : String) (l : List (Doc × ℚ)) : List (Doc × ℚ × String) :=
  l.map (fun p => (p.1, p.2, tag))

/-- Generic first-occurrence dedup over an already-tagged candidate list,
relative to a set of fingerprints already seen. Used to state and prove
the dedup law for `combineResults`. -/
def dedupFirst (seen : List String) :
    List (Doc × ℚ × String) → List (Doc × ℚ × String)
  | [] => []
  | e :: rest =>
    if fingerprint e.1 ∈ seen then dedupFirst seen rest
    else e :: dedupFirst (fingerprint e.1 :: seen) rest

/-- The keep-condition of the population filter in
`MedicalRetrievalSystem._apply_filters` (the loop `continue`s exactly when
this is false). A missing population tag defaults to `"general"`
(`metadata.get('population', 'general')`). -/
def keepDoc (qa : QueryAnalysis) (d : Doc) : Bool :=
  match qa.population with
  | none => true
  | some p =>
    if p = PopulationType.general then true
    else
      let docPop := d.population.getD "general"
      docPop == p.value || docPop == "general"

/-- `MedicalRetrievalSystem._apply_filters`. -/
def applyFilters (documents : List (Doc × ℚ × String)) (qa : QueryAnalysis) :
    List (Doc × ℚ × String) :=
  documents.filter (fun t => keepDoc qa t.1)

/-- Insert an element into a descending-sorted list, before any element of
equal score: together with `sortDesc` this models Python's stable
`list.sort(key=score, reverse=True)` (stable sorts by the same key agree). -/
def insertDesc (x : Doc × ℚ) : List (Doc × ℚ) → List (Doc × ℚ)
  | [] => [x]
  | y :: ys => if y.2 ≤ x.2 then x :: y :: ys else y :: insertDesc x ys

/-- Stable descending sort by score (model of Python's stable sort with
`reverse=True`, which keeps equal-score elements in their original order). -/
def sortDesc : List (Doc × ℚ) → List (Doc × ℚ)
  | [] => []
  | x :: xs => insertDesc x (sortDesc xs)

/-- The engine's external capabilities, treated as opaque functions (spec
§6): the sentence-transformer embedding, the Pinecone similarity score
between a query vector and a stored vector, the BM25 score of a corpus
document for a query given the whole corpus (term statistics depend on the
corpus), the cross-encoder score of one `(query, passage)` pair, and the
`str(abs(hash(...)) % 10**12)` fallback used for vector ids. -/
structure Backend where
  embed : String → List ℚ
  matchScore : List ℚ → List ℚ → ℚ
  bm25Score : List Doc → String → Doc → ℚ
  rerankScore : String → String → ℚ
  contentHash : String → String

/-- The `final_results` list built in `MedicalRetrievalSystem._rerank`
before sorting: each candidate paired positionally with
`0.3 * original_score + 0.7 * rerank_score` (floats modelled as exact
rationals; the cross-encoder scores each `(query, passage)` pair). -/
def blended (B : Backend) (query : String) (documents : List (Doc × ℚ × String)) :
    List (Doc × ℚ) :=
  documents.map
    (fun t => (t.1, (3 / 10 : ℚ) * t.2.1 + (7 / 10 : ℚ) * B.rerankScore query t.1.page_content))

/-- `MedicalRetrievalSystem._rerank`: empty input short-circuits to `[]`;
otherwise blend scores positionally and sort descending (stably). -/
def rerank (B : Backend) (query : String) (documents : List (Doc × ℚ × String)) :
    List (Doc × ℚ) :=
  if documents = [] then [] else sortDesc (blended B query documents)

/-- One stored Pinecone vector: id, values and metadata (the metadata,
including `page_content`, is carried as the `Doc` it round-trips to on the
read path; the pipeline only reads the fields kept in `Doc`). -/
structure PineEntry where
  id : String
  values : List ℚ
  doc : Doc
deriving DecidableEq, Repr

/-- Modelled from the spec: the remote Pinecone `index.upsert` is keyed by
vector id — re-adding an existing id overwrites that entry in place, a new
id is appended. (The Pinecone client is not part of `src/`; the spec says
"upserts are keyed by chunk identifier so re-adding the same identifier
overwrites".) -/
def upsertEntry (store : List PineEntry) (e : PineEntry) : List PineEntry :=
  if store.any (fun x => x.id == e.id) then
    store.map (fun x => if x.id == e.id then e else x)
  else store ++ [e]

/-- The vector id chosen in `PineconeVectorStore.add_documents`:
`metadata.get("chunk_id") or str(abs(hash(doc.page_content)) % (10**12))`
(an empty chunk id is falsy and falls back to the content hash). -/
def vectorId (B : Backend) (d : Doc) : String :=
  if d.chunk_id ≠ "" then d.chunk_id else B.contentHash d.page_content

/-- `PineconeVectorStore.add_documents`: documents are paired with
embeddings by `zip` (which stops at the shorter list) and upserted; the
`if vectors:` guard is the identity fold on the empty list. -/
def pineconeAddDocuments (B : Backend) (store : List PineEntry)
    (documents : List Doc) (embeddings : List (List ℚ)) : List PineEntry :=
  let vectors := (documents.zip embeddings).map
    (fun p => PineEntry.mk (vectorId B p.1) p.2 p.1)
  vectors.foldl upsertEntry store

/-- Modelled from the spec: the remote Pinecone `index.query` (not part of
`src/`) returns up to `top_k` stored entries with their similarity scores,
best first ("up to `k` nearest neighbors ordered by ascending distance";
"never fails on an empty store; returns an empty list"). -/
def pineconeQuery (B : Backend) (store : List PineEntry)
    (queryVec : List ℚ) (k : ℕ) : List (Doc × ℚ) :=
  (sortDesc (store.map (fun e => (e.doc, B.matchScore queryVec e.values)))).take k

/-- `PineconeVectorStore.similarity_search_with_score`: converts each match
score to a distance `1 - score`. (The metadata rehydration on this path
reshapes only the `guideline_metadata_*` keys, which the pipeline stages
never read; `population` and `page_content` pass through unchanged.) -/
def similaritySearchWithScore (B : Backend) (store : List PineEntry)
    (queryVec : List ℚ) (k : ℕ) : List (Doc × ℚ) :=
  (pineconeQuery B store queryVec k).map (fun p => (p.1, 1 - p.2))

/-- The mutable state of `MedicalRetrievalSystem`: the Pinecone store and
the BM25 document list (`self.documents`; `self.bm25` is `None` exactly
while this list is empty). -/
structure SystemState where
  pineconeStore : List PineEntry
  documents : List Doc
deriving Repr

/-- `MedicalRetrievalSystem.get_document_count`. -/
def getDocumentCount (st : SystemState) : ℕ := st.documents.length

/-- `MedicalRetrievalSystem.add_documents`: embed the batch, upsert into
Pinecone, and extend the BM25 corpus (the BM25 index is rebuilt from
`self.documents`, which is modelled by keeping the list itself). -/
def addDocuments (B : Backend) (st : SystemState) (documents : List Doc) :
    SystemState :=
  let embeddings := documents.map (fun d => B.embed d.page_content)
  { pineconeStore := pineconeAddDocuments B st.pineconeStore documents embeddings
    documents := st.documents ++ documents }

/-- `MedicalRetrievalSystem._dense_retrieval`: embed the query, run the
similarity search, convert each distance back to a similarity `1 - d`. -/
def denseRetrieval (B : Backend) (st : SystemState) (query : String) (k : ℕ) :
    List (Doc × ℚ) :=
  (similaritySearchWithScore B st.pineconeStore (B.embed query) k).map
    (fun p => (p.1, 1 - p.2))

/-- `MedicalRetrievalSystem._sparse_retrieval`: `[]` while `self.bm25` is
`None` (no documents added); otherwise score the whole corpus and keep the
top `k` (`np.argsort(scores)[::-1][:k]` followed by index lookups, which is
the descending sort of `(doc, score)` pairs truncated to `k`; the
`idx < len(documents)` guard always holds). -/
def sparseRetrieval (B : Backend) (st : SystemState) (query : String) (k : ℕ) :
    List (Doc × ℚ) :=
  if st.documents = [] then []
  else
    (sortDesc (st.documents.map (fun d => (d, B.bm25Score st.documents query d)))).take k

/-- `settings.max_retrieval_docs` default (`src/src/config.py`). -/
def maxRetrievalDocs : ℕ := 10

/-- `k = k or settings.max_retrieval_docs` in `retrieve`: Python `or`
makes both `None` and `0` fall back to the configured default. -/
def effectiveK (k : Option ℕ) : ℕ :=
  match k with
  | none => maxRetrievalDocs
  | some v => if v = 0 then maxRetrievalDocs else v

/-- `MedicalRetrievalSystem.retrieve`: resolve `k`, dense and sparse
retrieval at `k * 2`, fuse+dedup, population filter, rerank, truncate to
`k`, and map to `RetrievedDocument` with the blended score propagated as
both `relevance_score` and `rerank_score`. -/
def retrieve (B : Backend) (st : SystemState) (qa : QueryAnalysis)
    (k : Option ℕ) : List RetrievedDocument :=
  let kk := effectiveK k
  let query := qa.original_query
  let dense := denseRetrieval B st query (kk * 2)
  let sparse := sparseRetrieval B st query (kk * 2)
  let combined := combineResults dense sparse
  let filtered := applyFilters combined qa
  let reranked := rerank B query filtered
  (reranked.take kk).map
    (fun p => { content := p.1.page_content
                population := p.1.population
                relevance_score := p.2
                rerank_score := some p.2 })

/-! ### Metadata flattening and rehydration (`PineconeVectorStore`) -/

/-- A Pinecone-compatible primitive metadata value (`str`/`int`/`bool`;
the flattened metadata of this data model never contains lists). -/
inductive MetaValue where
  | str (s : String)
  | int (n : Int)
  | bool (b : Bool)
deriving DecidableEq, Repr

/-- Python truthiness of a primitive metadata value. -/
def MetaValue.truthy : MetaValue → Bool
  | .str s => s != ""
  | .int n => n != 0
  | .bool b => b

/-- Python `x or fallback` on an optional metadata value (`None` and falsy
values both select the fallback). -/
def pyOrV (v : Option MetaValue) (fb : MetaValue) : MetaValue :=
  match v with
  | some x => if x.truthy then x else fb
  | none => fb

/-- Coerce a metadata value to a string (only the `str` case occurs on the
paths under study). -/
def MetaValue.toStr : MetaValue → String
  | .str s => s
  | .int n => toString n
  | .bool b => toString b

/-- Python `int(...)` on a metadata value (only the `int` case occurs on
the paths under study). -/
def MetaValue.toIntV : MetaValue → Int
  | .str s => s.toInt?.getD 0
  | .int n => n
  | .bool b => if b then 1 else 0

/-- `GuidelineMetadata` (`src/src/models.py`); `last_updated` is the
ISO-8601 string of the datetime. -/
structure GuidelineMetadata where
  guideline_name : String
  organization : String
  publication_year : Int
  version : Option String
  country : Option String
  specialty : Option String
  last_updated : Option String
deriving DecidableEq, Repr

/-- `ChunkMetadata` (`src/src/models.py`). -/
structure ChunkMetadata where
  guideline : String
  «section» : String
  subsection : Option String
  population : PopulationType
  page_number : Option Int
  chunk_id : String
  guideline_metadata : GuidelineMetadata
deriving DecidableEq, Repr

/-- An optional string field of the metadata dict: absent when `None`
(`_sanitize_metadata` drops `None` values). -/
def optStr (key : String) (v : Option String) : List (String × MetaValue) :=
  match v with
  | none => []
  | some s => [(key, .str s)]

/-- An optional integer field of the metadata dict: absent when `None`. -/
def optInt (key : String) (v : Option Int) : List (String × MetaValue) :=
  match v with
  | none => []
  | some n => [(key, .int n)]

/-- The `guideline_metadata_*` block produced by
`PineconeVectorStore._sanitize_metadata` for the nested
`guideline_metadata` dict: keys joined with an underscore, `None` values
dropped, the datetime turned into its ISO string, field order as declared. -/
def flattenGuideline (gm : GuidelineMetadata) : List (String × MetaValue) :=
  [("guideline_metadata_guideline_name", .str gm.guideline_name),
   ("guideline_metadata_organization", .str gm.organization),
   ("guideline_metadata_publication_year", .int gm.publication_year)]
  ++ optStr "guideline_metadata_version" gm.version
  ++ optStr "guideline_metadata_country" gm.country
  ++ optStr "guideline_metadata_specialty" gm.specialty
  ++ optStr "guideline_metadata_last_updated" gm.last_updated

/-- `PineconeVectorStore._sanitize_metadata` applied to the `.dict()` form
of a `ChunkMetadata`: `None` values dropped, the population enum replaced
by its string value, the nested guideline metadata flattened under the
`guideline_metadata_` namespace. -/
def flattenChunkMetadata (cm : ChunkMetadata) : List (String × MetaValue) :=
  [("guideline", .str cm.guideline), ("section", .str cm.«section»)]
  ++ optStr "subsection" cm.subsection
  ++ [("population", .str cm.population.value)]
  ++ optInt "page_number" cm.page_number
  ++ [("chunk_id", .str cm.chunk_id)]
  ++ flattenGuideline cm.guideline_metadata

/-- Dictionary lookup in a flat metadata map. -/
def lookupMeta (m : List (String × MetaValue)) (k : String) : Option MetaValue :=
  (m.find? (fun kv => kv.1 == k)).map (fun kv => kv.2)

/-- Python's `key.startswith(p)` (equivalent to `String.startsWith`,
stated on the character lists so that it computes by reduction). -/
def strStartsWith (s p : String) : Bool := p.data.isPrefixOf s.data

/-- Python's `key[n:]` (equivalent to `String.drop`, stated on the
character lists so that it computes by reduction). -/
def strDrop (s : String) (n : ℕ) : String := ⟨s.data.drop n⟩

/-- The `gm_fields` dict of `similarity_search_with_score`: entries whose
key starts with `guideline_metadata_`, with that namespace stripped
(`"guideline_metadata_".length = 19`). -/
def gmFields (m : List (String × MetaValue)) : List (String × MetaValue) :=
  m.filterMap (fun kv =>
    if strStartsWith kv.1 "guideline_metadata_" then some (strDrop kv.1 19, kv.2) else none)

/-- `datetime.fromisoformat(gm_fields["last_updated"]) if
gm_fields.get("last_updated") else None` (the datetime modelled by its ISO
string). -/
def parseLastUpdated (v : Option MetaValue) : Option String :=
  match v with
  | some x => if x.truthy then some x.toStr else none
  | none => none

/-- The `GuidelineMetadata` reconstructed by `similarity_search_with_score`
from the remaining flat metadata `md` and the stripped `gm` fields:
`guideline_name` prefers the top-level `guideline` value, falsy values fall
through to defaults (`"Unknown Guideline"`, `"Unknown"`, the current year),
and `last_updated` is parsed back from its ISO string when truthy. -/
def rehydrateGuideline (currentYear : Int) (md gm : List (String × MetaValue)) :
    GuidelineMetadata :=
  { guideline_name :=
      (pyOrV (lookupMeta md "guideline")
        (pyOrV (lookupMeta gm "guideline_name") (.str "Unknown Guideline"))).toStr
    organization := (pyOrV (lookupMeta gm "organization") (.str "Unknown")).toStr
    publication_year := (pyOrV (lookupMeta gm "publication_year") (.int currentYear)).toIntV
    version := (lookupMeta gm "version").map MetaValue.toStr
    country := (lookupMeta gm "country").map MetaValue.toStr
    specialty := (lookupMeta gm "specialty").map MetaValue.toStr
    last_updated := parseLastUpdated (lookupMeta gm "last_updated") }

/-- pydantic coercion of the `population` entry into the enum field
(missing means the declared default `GENERAL`; an invalid value is a
validation error). -/
def parsePopulation (m : List (String × MetaValue)) : Option PopulationType :=
  match lookupMeta m "population" with
  | none => some PopulationType.general
  | some (.str s) => PopulationType.ofValue s
  | some _ => none

/-- pydantic coercion of an `Optional[str]` field from the flat map. -/
def parseOptStrField (v : Option MetaValue) : Option String :=
  match v with
  | some (.str x) => some x
  | _ => none

/-- pydantic coercion of an `Optional[int]` field from the flat map. -/
def parseOptIntField (v : Option MetaValue) : Option Int :=
  match v with
  | some (.int n) => some n
  | _ => none

/-- `ChunkMetadata(**doc.metadata)` as performed in `retrieve` on the
rehydrated metadata: the required string fields must be present, optional
fields default to `None`, the population string is coerced to the enum. -/
def parseChunkMetadata (md : List (String × MetaValue)) (gmeta : GuidelineMetadata) :
    Option ChunkMetadata :=
  match lookupMeta md "guideline", lookupMeta md "section",
        lookupMeta md "chunk_id", parsePopulation md with
  | some (.str g), some (.str s), some (.str cid), some pop =>
    some { guideline := g
           «section» := s
           subsection := parseOptStrField (lookupMeta md "subsection")
           population := pop
           page_number := parseOptIntField (lookupMeta md "page_number")
           chunk_id := cid
           guideline_metadata := gmeta }
  | _, _, _, _ => none

/-- The read-path reassembly of `similarity_search_with_score` followed by
the `ChunkMetadata(**metadata)` coercion: strip the `guideline_metadata_*`
keys out of the flat map, rebuild the nested `GuidelineMetadata`, and parse
the structured `ChunkMetadata`. -/
def rehydrateMetadata (currentYear : Int) (m : List (String × MetaValue)) :
    Option ChunkMetadata :=
  let gm := gmFields m
  let md := m.filter (fun kv => ! strStartsWith kv.1 "guideline_metadata_")
  parseChunkMetadata md (rehydrateGuideline currentYear md gm)

/-! ### Lemmas: the fusion dedup loop -/

/-- The candidates kept by one dedup pass are the first occurrences of
fingerprints not yet seen. -/
theorem addCandidates_snd (tag : String) (l : List (Doc × ℚ)) :
    ∀ seen, (addCandidates tag l seen).2 = dedupFirst seen (tagWith tag l) := by
  induction l with
  | nil => intro seen; rfl
  | cons x t ih =>
    intro seen
    obtain ⟨doc, score⟩ := x
    by_cases h : fingerprint doc ∈ seen
    · simp [addCandidates, tagWith, dedupFirst, h, ih, tagWith]
    · simp [addCandidates, tagWith, dedupFirst, h, ih, tagWith]

/-- The seen set after one dedup pass holds exactly the old seen set plus
the fingerprints of the processed candidates. -/
theorem addCandidates_fst_mem (tag : String) (l : List (Doc × ℚ)) :
    ∀ seen f, f ∈ (addCandidates tag l seen).1 ↔
      f ∈ seen ∨ f ∈ l.map (fun p => fingerprint p.1) := by
  induction l with
  | nil => intro seen f; simp [addCandidates]
  | cons x t ih =>
    intro seen f
    obtain ⟨doc, score⟩ := x
    by_cases h : fingerprint doc ∈ seen
    · simp only [addCandidates, h, if_pos, List.map_cons, List.mem_cons]
      rw [ih]
      constructor
      · rintro (hs | ht)
        · exact Or.inl hs
        · exact Or.inr (Or.inr ht)
      · rintro (hs | hf | ht)
        · exact Or.inl hs
        · exact Or.inl (by rw [hf]; exact h)
        · exact Or.inr ht
    · simp only [addCandidates, h, if_neg, not_false_iff, List.map_cons, List.mem_cons]
      rw [ih]
      simp only [List.mem_cons]
      constructor
      · rintro ((hf | hs) | ht)
        · exact Or.inr (Or.inl hf)
        · exact Or.inl hs
        · exact Or.inr (Or.inr ht)
      · rintro (hs | hf | ht)
        · exact Or.inl (Or.inr hs)
        · exact Or.inl (Or.inl hf)
        · exact Or.inr ht

/-- `dedupFirst` only consults the seen set through membership. -/
theorem dedupFirst_congr (l : List (Doc × ℚ × String)) :
    ∀ s₁ s₂, (∀ f, f ∈ s₁ ↔ f ∈ s₂) → dedupFirst s₁ l = dedupFirst s₂ l := by
  induction l with
  | nil => intro s₁ s₂ _; rfl
  | cons e t ih =>
    intro s₁ s₂ hs
    by_cases h : fingerprint e.1 ∈ s₁
    · have h₂ : fingerprint e.1 ∈ s₂ := (hs _).mp h
      simp [dedupFirst, h, h₂, ih s₁ s₂ hs]
    · have h₂ : fingerprint e.1 ∉ s₂ := fun hx => h ((hs _).mpr hx)
      have hs' : ∀ f, f ∈ fingerprint e.1 :: s₁ ↔ f ∈ fingerprint e.1 :: s₂ := by
        intro f; simp [List.mem_cons, hs f]
      simp [dedupFirst, h, h₂, ih _ _ hs']

/-- Splitting a dedup pass over an append: the second half runs with the
first half's fingerprints added to the seen set. -/
theorem dedupFirst_append (l₁ l₂ : List (Doc × ℚ × String)) :
    ∀ seen, dedupFirst seen (l₁ ++ l₂) =
      dedupFirst seen l₁ ++
        dedupFirst (l₁.map (fun t => fingerprint t.1) ++ seen) l₂ := by
  induction l₁ with
  | nil => intro seen; simp [dedupFirst]
  | cons e t ih =>
    intro seen
    by_cases h : fingerprint e.1 ∈ seen
    · have h1 : dedupFirst seen ((e :: t) ++ l₂) = dedupFirst seen (t ++ l₂) := by
        simp [dedupFirst, h]
      have h2 : dedupFirst seen (e :: t) = dedupFirst seen t := by
        simp [dedupFirst, h]
      rw [h1, h2, ih]
      congr 1
      apply dedupFirst_congr
      intro f
      simp only [List.map_cons, List.cons_append, List.mem_cons, List.mem_append]
      constructor
      · rintro (ht | hs)
        · exact Or.inr (Or.inl ht)
        · exact Or.inr (Or.inr hs)
      · rintro (hf | ht | hs)
        · exact Or.inr (by rw [hf]; exact h)
        · exact Or.inl ht
        · exact Or.inr hs
    · have h1 : dedupFirst seen ((e :: t) ++ l₂) =
          e :: dedupFirst (fingerprint e.1 :: seen) (t ++ l₂) := by
        simp [dedupFirst, h]
      have h2 : dedupFirst seen (e :: t) =
          e :: dedupFirst (fingerprint e.1 :: seen) t := by
        simp [dedupFirst, h]
      rw [h1, h2, ih, List.cons_append]
      congr 2
      apply dedupFirst_congr
      intro f
      simp only [List.map_cons, List.cons_append, List.mem_cons, List.mem_append]
      constructor
      · rintro (ht | hf | hs)
        · exact Or.inr (Or.inl ht)
        · exact Or.inl hf
        · exact Or.inr (Or.inr hs)
      · rintro (hf | ht | hs)
        · exact Or.inr (Or.inl hf)
        · exact Or.inl ht
        · exact Or.inr (Or.inr hs)

/-- `_combine_results` is the first-occurrence dedup of the dense-tagged
candidates followed by the sparse-tagged candidates. -/
theorem combineResults_eq_dedupFirst (dense sparse : List (Doc × ℚ)) :
    combineResults dense sparse =
      dedupFirst [] (tagWith "dense" dense ++ tagWith "sparse" sparse) := by
  show (addCandidates "dense" dense []).2 ++
      (addCandidates "sparse" sparse (addCandidates "dense" dense []).1).2 = _
  rw [dedupFirst_append, addCandidates_snd, addCandidates_snd]
  congr 1
  apply dedupFirst_congr
  intro f
  rw [addCandidates_fst_mem]
  simp [tagWith, List.map_map, Function.comp]

/-- The fingerprints of a dedup pass output are distinct and disjoint from
the seen set. -/
theorem dedupFirst_nodup (l : List (Doc × ℚ × String)) :
    ∀ seen, ((dedupFirst seen l).map (fun t => fingerprint t.1)).Nodup ∧
      ∀ f ∈ (dedupFirst seen l).map (fun t => fingerprint t.1), f ∉ seen := by
  induction l with
  | nil => intro seen; simp [dedupFirst]
  | cons e t ih =>
    intro seen
    by_cases h : fingerprint e.1 ∈ seen
    · simpa [dedupFirst, h] using ih seen
    · obtain ⟨hnd, hdisj⟩ := ih (fingerprint e.1 :: seen)
      refine ⟨?_, ?_⟩
      · simp only [dedupFirst, h, if_neg, not_false_iff, List.map_cons, List.nodup_cons]
        refine ⟨fun hx => ?_, hnd⟩
        exact (hdisj _ hx) (List.mem_cons_self _ _)
      · intro f hf
        simp only [dedupFirst, h, if_neg, not_false_iff, List.map_cons,
          List.mem_cons] at hf
        rcases hf with hf | hf
        · exact hf ▸ h
        · intro hfs
          exact (hdisj _ hf) (List.mem_cons_of_mem _ hfs)

/-- A fingerprint occurs in the dedup output exactly when it occurs in the
input and was not already seen. -/
theorem dedupFirst_mem_map (l : List (Doc × ℚ × String)) :
    ∀ seen f, f ∈ (dedupFirst seen l).map (fun t => fingerprint t.1) ↔
      f ∈ l.map (fun t => fingerprint t.1) ∧ f ∉ seen := by
  induction l with
  | nil => intro seen f; simp [dedupFirst]
  | cons e t ih =>
    intro seen f
    by_cases h : fingerprint e.1 ∈ seen
    · simp only [dedupFirst, h, if_pos, List.map_cons, List.mem_cons]
      rw [ih]
      constructor
      · rintro ⟨hm, hs⟩; exact ⟨Or.inr hm, hs⟩
      · rintro ⟨hf | hm, hs⟩
        · exact absurd (by rw [hf]; exact h) hs
        · exact ⟨hm, hs⟩
    · simp only [dedupFirst, h, if_neg, not_false_iff, List.map_cons, List.mem_cons]
      rw [ih]
      simp only [List.mem_cons]
      constructor
      · rintro (hf | ⟨hm, hs⟩)
        · exact ⟨Or.inl hf, by rw [hf]; exact h⟩
        · exact ⟨Or.inr hm, fun hx => hs (Or.inr hx)⟩
      · rintro ⟨hf | hm, hs⟩
        · exact Or.inl hf
        · by_cases hfe : f = fingerprint e.1
          · exact Or.inl hfe
          · refine Or.inr ⟨hm, fun hx => ?_⟩
            rcases hx with hx | hx
            · exact hfe hx
            · exact hs hx

/-- Every entry of the dedup output is an unmodified input entry, and it is
the first input entry carrying its fingerprint. -/
theorem dedupFirst_first_occ (l : List (Doc × ℚ × String)) :
    ∀ seen e, e ∈ dedupFirst seen l →
      fingerprint e.1 ∉ seen ∧ ∃ l₁ l₂, l = l₁ ++ e :: l₂ ∧
        ∀ x ∈ l₁, fingerprint x.1 ≠ fingerprint e.1 := by
  induction l with
  | nil => intro seen e he; simp [dedupFirst] at he
  | cons a t ih =>
    intro seen e he
    by_cases h : fingerprint a.1 ∈ seen
    · simp only [dedupFirst, h, if_pos] at he
      obtain ⟨hns, l₁, l₂, heq, hfirst⟩ := ih seen e he
      refine ⟨hns, a :: l₁, l₂, by simp [heq], ?_⟩
      intro x hx
      rcases List.mem_cons.mp hx with hx | hx
      · subst hx; intro hcontra; exact hns (hcontra ▸ h)
      · exact hfirst x hx
    · simp only [dedupFirst, h, if_neg, not_false_iff, List.mem_cons] at he
      rcases he with he | he
      · subst he; exact ⟨h, [], t, rfl, by simp⟩
      · obtain ⟨hns, l₁, l₂, heq, hfirst⟩ := ih _ e he
        have hne : fingerprint a.1 ≠ fingerprint e.1 := by
          intro hcontra
          apply hns
          rw [← hcontra]
          exact List.mem_cons_self _ _
        refine ⟨fun hx => hns (List.mem_cons_of_mem _ hx), a :: l₁, l₂, by simp [heq], ?_⟩
        intro x hx
        rcases List.mem_cons.mp hx with hx | hx
        · subst hx; exact hne
        · exact hfirst x hx

/-- C1: the fused output of `_combine_results` contains exactly one entry
per distinct fingerprint (100-character content prefix) occurring among the
dense-then-sparse candidates; each kept entry is the first candidate (all
dense before all sparse) with its fingerprint, carried unchanged with its
original score and origin tag, and every later candidate with an equal
fingerprint is dropped. -/
theorem combine_dedup_law_C1 (dense sparse : List (Doc × ℚ)) :
    ((combineResults dense sparse).map (fun t => fingerprint t.1)).Nodup ∧
    (∀ f, f ∈ (tagWith "dense" dense ++ tagWith "sparse" sparse).map
            (fun t => fingerprint t.1) ↔
          f ∈ (combineResults dense sparse).map (fun t => fingerprint t.1)) ∧
    (∀ e ∈ combineResults dense sparse, ∃ l₁ l₂,
        tagWith "dense" dense ++ tagWith "sparse" sparse = l₁ ++ e :: l₂ ∧
        ∀ x ∈ l₁, fingerprint x.1 ≠ fingerprint e.1) := by
  rw [combineResults_eq_dedupFirst]
  refine ⟨(dedupFirst_nodup _ _).1, ?_, ?_⟩
  · intro f
    rw [dedupFirst_mem_map]
    simp
  · intro e he
    exact (dedupFirst_first_occ _ _ _ he).2

/-- Witness for C1: the same chunk text arriving from both paths is kept
once, from the dense list, with its dense score, and the sparse duplicate
is dropped. -/
theorem combine_dedup_law_C1_witness :
    ∃ l₁ l₂,
      tagWith "dense"
          [(Doc.mk "HIV is a retrovirus" (some "general") "A1", (1 : ℚ))] ++
        tagWith "sparse"
          [(Doc.mk "HIV is a retrovirus" (some "general") "A1", (2 : ℚ))] =
        l₁ ++ (Doc.mk "HIV is a retrovirus" (some "general") "A1",
               (1 : ℚ), "dense") :: l₂ ∧
      ∀ x ∈ l₁, fingerprint x.1 ≠
        fingerprint (Doc.mk "HIV is a retrovirus" (some "general") "A1") :=
  (combine_dedup_law_C1
      [(Doc.mk "HIV is a retrovirus" (some "general") "A1", (1 : ℚ))]
      [(Doc.mk "HIV is a retrovirus" (some "general") "A1", (2 : ℚ))]).2.2
    (Doc.mk "HIV is a retrovirus" (some "general") "A1", (1 : ℚ), "dense")
    (by decide)

/-! ### The population filter (claims C2 and C10) -/

/-- C2: with no population in the query context, or population `general`,
`_apply_filters` keeps every candidate unchanged; with a non-general
population `p` it keeps exactly the candidates whose effective population
tag (`metadata.get('population', 'general')`) equals `p`'s value or
`"general"`. -/
theorem apply_filters_C2 (docs : List (Doc × ℚ × String)) (qa : QueryAnalysis) :
    ((qa.population = none ∨ qa.population = some PopulationType.general) →
      applyFilters docs qa = docs) ∧
    (∀ p, qa.population = some p → p ≠ PopulationType.general →
      ∀ t, t ∈ applyFilters docs qa ↔
        t ∈ docs ∧ (t.1.population.getD "general" = p.value ∨
                    t.1.population.getD "general" = "general")) := by
  constructor
  · intro h
    apply List.filter_eq_self.mpr
    intro t _
    rcases h with h | h <;> simp [keepDoc, h]
  · intro p hp hg t
    rw [applyFilters, List.mem_filter]
    simp [keepDoc, hp, hg]

/-- Witness for C2 at concrete inputs: a no-population context keeps the
list unchanged, and a pediatric context gives the membership
characterization for a pregnant-tagged candidate. -/
theorem apply_filters_C2_witness :
    (applyFilters
        [(Doc.mk "HIV is a retrovirus" (some "general") "A1", (1 : ℚ), "dense"),
         (Doc.mk "ART dosing in pregnancy" (some "pregnant") "B1", (2 : ℚ), "sparse")]
        (QueryAnalysis.mk "What is HIV?" none) =
      [(Doc.mk "HIV is a retrovirus" (some "general") "A1", (1 : ℚ), "dense"),
       (Doc.mk "ART dosing in pregnancy" (some "pregnant") "B1", (2 : ℚ), "sparse")]) ∧
    ((Doc.mk "ART dosing in pregnancy" (some "pregnant") "B1", (2 : ℚ), "sparse") ∈
        applyFilters
          [(Doc.mk "HIV is a retrovirus" (some "general") "A1", (1 : ℚ), "dense"),
           (Doc.mk "ART dosing in pregnancy" (some "pregnant") "B1", (2 : ℚ), "sparse")]
          (QueryAnalysis.mk "ART dosing" (some PopulationType.pediatric)) ↔
      ((Doc.mk "ART dosing in pregnancy" (some "pregnant") "B1", (2 : ℚ), "sparse") ∈
          [(Doc.mk "HIV is a retrovirus" (some "general") "A1", (1 : ℚ), "dense"),
           (Doc.mk "ART dosing in pregnancy" (some "pregnant") "B1", (2 : ℚ), "sparse")] ∧
        ((Doc.mk "ART dosing in pregnancy" (some "pregnant") "B1").population.getD "general" =
            PopulationType.pediatric.value ∨
         (Doc.mk "ART dosing in pregnancy" (some "pregnant") "B1").population.getD "general" =
            "general"))) :=
  ⟨(apply_filters_C2 _ _).1 (Or.inl rfl),
   (apply_filters_C2 _ _).2 PopulationType.pediatric rfl (by decide) _⟩

/-- C10 (implicit): a candidate whose metadata has no population tag at all
is treated as `general` by `metadata.get('population', 'general')` and so
survives the population filter for every query context. -/
theorem missing_population_survives_C10 (docs : List (Doc × ℚ × String))
    (qa : QueryAnalysis) (t : Doc × ℚ × String)
    (ht : t ∈ docs) (hpop : t.1.population = none) :
    t ∈ applyFilters docs qa := by
  rw [applyFilters, List.mem_filter]
  refine ⟨ht, ?_⟩
  unfold keepDoc
  cases hq : qa.population with
  | none => rfl
  | some p =>
    by_cases hg : p = PopulationType.general
    · simp [hg]
    · simp [hg, hpop]

/-- Witness for C10: an untagged candidate survives a pediatric filter. -/
theorem missing_population_survives_C10_witness :
    (Doc.mk "General guidance" none "D1", (5 : ℚ), "dense") ∈
      applyFilters [(Doc.mk "General guidance" none "D1", (5 : ℚ), "dense")]
        (QueryAnalysis.mk "ART dosing" (some PopulationType.pediatric)) :=
  missing_population_survives_C10 _ _ _ (by decide) rfl

/-! ### Lemmas: the stable descending sort of `_rerank` -/

/-- Inserting permutes: the result holds the new element and the old ones. -/
theorem insertDesc_perm (x : Doc × ℚ) (l : List (Doc × ℚ)) :
    List.Perm (insertDesc x l) (x :: l) := by
  induction l with
  | nil => exact List.Perm.refl _
  | cons y ys ih =>
    by_cases h : y.2 ≤ x.2
    · simp [insertDesc, h]
    · simp only [insertDesc, h, if_neg, not_false_iff]
      exact List.Perm.trans (List.Perm.cons y ih) (List.Perm.swap x y ys)

/-- `sortDesc` permutes its input. -/
theorem sortDesc_perm (l : List (Doc × ℚ)) : List.Perm (sortDesc l) l := by
  induction l with
  | nil => exact List.Perm.refl _
  | cons x xs ih =>
    exact List.Perm.trans (insertDesc_perm x (sortDesc xs)) (List.Perm.cons x ih)

/-- Inserting preserves descending sortedness. -/
theorem insertDesc_pairwise (x : Doc × ℚ) (l : List (Doc × ℚ))
    (h : l.Pairwise (fun a b => b.2 ≤ a.2)) :
    (insertDesc x l).Pairwise (fun a b => b.2 ≤ a.2) := by
  induction l with
  | nil => simp [insertDesc]
  | cons y ys ih =>
    obtain ⟨hy, hys⟩ := List.pairwise_cons.mp h
    by_cases hc : y.2 ≤ x.2
    · simp only [insertDesc, hc, if_pos]
      refine List.pairwise_cons.mpr ⟨?_, h⟩
      intro z hz
      rcases List.mem_cons.mp hz with hz | hz
      · rw [hz]; exact hc
      · exact le_trans (hy z hz) hc
    · simp only [insertDesc, hc, if_neg, not_false_iff]
      refine List.pairwise_cons.mpr ⟨?_, ih hys⟩
      intro z hz
      have hz' : z ∈ x :: ys := (insertDesc_perm x ys).subset hz
      rcases List.mem_cons.mp hz' with hz' | hz'
      · rw [hz']; exact le_of_lt (lt_of_not_le hc)
      · exact hy z hz'

/-- `sortDesc` output is descending in score. -/
theorem sortDesc_pairwise (l : List (Doc × ℚ)) :
    (sortDesc l).Pairwise (fun a b => b.2 ≤ a.2) := by
  induction l with
  | nil => simp [sortDesc]
  | cons x xs ih => exact insertDesc_pairwise x (sortDesc xs) ih

/-- Stability of insertion at each score level: the new element lands after
no and before all equal-score elements already present. -/
theorem insertDesc_filter (x : Doc × ℚ) (l : List (Doc × ℚ)) (s : ℚ) :
    (insertDesc x l).filter (fun p => p.2 == s) =
      (if x.2 == s then [x] else []) ++ l.filter (fun p => p.2 == s) := by
  induction l with
  | nil =>
    rw [show insertDesc x [] = [x] from rfl, List.filter_cons]
    by_cases hx : (x.2 == s) = true <;> simp [hx]
  | cons y ys ih =>
    by_cases hc : y.2 ≤ x.2
    · simp only [insertDesc, hc, if_pos]
      rw [List.filter_cons, List.filter_cons]
      by_cases hx : (x.2 == s) = true <;> simp [hx]
    · simp only [insertDesc, hc, if_neg, not_false_iff]
      rw [List.filter_cons, List.filter_cons, ih]
      by_cases hy : (y.2 == s) = true
      · have hy' : y.2 = s := by simpa using hy
        have hx : (x.2 == s) = false := by
          rw [beq_eq_false_iff_ne]
          intro hxx
          apply hc
          rw [hxx, hy']
        simp [hy, hx]
      · have hy2 : (y.2 == s) = false := by simpa using hy
        simp [hy2]

/-- Stability of `sortDesc`: at each score level the output preserves the
input order exactly. -/
theorem sortDesc_filter (l : List (Doc × ℚ)) (s : ℚ) :
    (sortDesc l).filter (fun p => p.2 == s) = l.filter (fun p => p.2 == s) := by
  induction l with
  | nil => rfl
  | cons x xs ih =>
    rw [sortDesc, insertDesc_filter, ih, List.filter_cons]
    by_cases hx : (x.2 == s) = true <;> simp [hx]

/-- `_rerank` is a permutation of the blended list. -/
theorem rerank_perm (B : Backend) (query : String)
    (docs : List (Doc × ℚ × String)) :
    List.Perm (rerank B query docs) (blended B query docs) := by
  unfold rerank
  by_cases h : docs = []
  · rw [h]; simp [blended]
  · rw [if_neg h]; exact sortDesc_perm _

/-- `_rerank` preserves the number of candidates. -/
theorem rerank_length (B : Backend) (query : String)
    (docs : List (Doc × ℚ × String)) :
    (rerank B query docs).length = docs.length := by
  rw [(rerank_perm B query docs).length_eq, blended, List.length_map]

/-- `_rerank` output is descending in blended score. -/
theorem rerank_pairwise (B : Backend) (query : String)
    (docs : List (Doc × ℚ × String)) :
    (rerank B query docs).Pairwise (fun a b => b.2 ≤ a.2) := by
  unfold rerank
  by_cases h : docs = []
  · rw [h]; simp
  · rw [if_neg h]; exact sortDesc_pairwise _

/-- The fused-and-filtered candidate list inside one `retrieve` call. -/
def filteredCandidates (B : Backend) (st : SystemState) (qa : QueryAnalysis)
    (kk : ℕ) : List (Doc × ℚ × String) :=
  applyFilters
    (combineResults (denseRetrieval B st qa.original_query (kk * 2))
      (sparseRetrieval B st qa.original_query (kk * 2))) qa

/-- `retrieve` unfolded to its pipeline form. -/
theorem retrieve_eq (B : Backend) (st : SystemState) (qa : QueryAnalysis)
    (k : Option ℕ) :
    retrieve B st qa k =
      ((rerank B qa.original_query
          (filteredCandidates B st qa (effectiveK k))).take (effectiveK k)).map
        (fun p => { content := p.1.page_content
                    population := p.1.population
                    relevance_score := p.2
                    rerank_score := some p.2 }) := rfl

/-- C3: the final list returned by `retrieve` is non-increasing in blended
score (any two adjacent entries satisfy `final[i].score >= final[i+1].score`),
and `_rerank`'s sort is stable: at every score level the sorted list keeps
the candidates in their original fusion order, so identical inputs produce
an identical output order (all functions here are deterministic). -/
theorem retrieve_sorted_stable_C3 :
    (∀ (B : Backend) (st : SystemState) (qa : QueryAnalysis) (k : Option ℕ),
      List.Chain' (fun a b => b.relevance_score ≤ a.relevance_score)
        (retrieve B st qa k)) ∧
    (∀ (B : Backend) (query : String) (docs : List (Doc × ℚ × String)) (s : ℚ),
      (rerank B query docs).filter (fun p => p.2 == s) =
        (blended B query docs).filter (fun p => p.2 == s)) := by
  constructor
  · intro B st qa k
    apply List.Pairwise.chain'
    rw [retrieve_eq, List.pairwise_map]
    exact (rerank_pairwise B qa.original_query _).sublist (List.take_sublist _ _)
  · intro B query docs s
    unfold rerank
    by_cases h : docs = []
    · rw [h]; simp [blended]
    · rw [if_neg h]; exact sortDesc_filter _ s

/-- C4: for a non-empty filtered candidate list, `_rerank` assigns each
candidate the blended score `0.3 * origin_score + 0.7 * rerank_score`,
pairing candidates and reranker outputs positionally (its output is the
descending-sorted permutation of exactly that blended list). -/
theorem rerank_blend_C4 (B : Backend) (query : String)
    (docs : List (Doc × ℚ × String)) (_h : docs ≠ []) :
    List.Perm (rerank B query docs)
      (docs.map (fun t =>
        (t.1, (3 / 10 : ℚ) * t.2.1 +
              (7 / 10 : ℚ) * B.rerankScore query t.1.page_content))) :=
  rerank_perm B query docs

/-- A concrete backend for witnesses and counterexamples. -/
def B0 : Backend :=
  { embed := fun _ => [1]
    matchScore := fun _ _ => 1
    bm25Score := fun _ _ _ => 1
    rerankScore := fun _ _ => 1
    contentHash := fun _ => "0" }

/-- Witness for C4 at a one-candidate list. -/
theorem rerank_blend_C4_witness :
    [(Doc.mk "HIV is a retrovirus" (some "general") "A1", (1 : ℚ), "dense")] ≠
        ([] : List (Doc × ℚ × String)) ∧
    List.Perm
      (rerank B0 "What is HIV?"
        [(Doc.mk "HIV is a retrovirus" (some "general") "A1", (1 : ℚ), "dense")])
      ([(Doc.mk "HIV is a retrovirus" (some "general") "A1", (1 : ℚ), "dense")].map
        (fun t => (t.1, (3 / 10 : ℚ) * t.2.1 +
              (7 / 10 : ℚ) * B0.rerankScore "What is HIV?" t.1.page_content))) :=
  ⟨List.cons_ne_nil _ _,
   rerank_blend_C4 B0 "What is HIV?" _ (List.cons_ne_nil _ _)⟩

/-! ### The orchestrator: truncation and the empty corpus (claims C6, C7) -/

/-- C6 amended: for a requested `k ≠ 0`, `retrieve` returns `min k n`
results where `n` is the number of candidates surviving fusion, dedup and
filtering of the two retrieval paths — both of which are asked for `k * 2`
candidates; in particular at most `k` results, and when at most `k`
candidates survive, exactly the reranked survivors, neither padded nor
erroring. A requested `k = 0` is excluded: Python's
`k = k or settings.max_retrieval_docs` overrides it to the default of 10
(see the counterexample to the unrestricted claim). -/
theorem retrieve_topk_C6 (B : Backend) (st : SystemState) (qa : QueryAnalysis)
    (k : ℕ) (hk : k ≠ 0) :
    (retrieve B st qa (some k)).length =
      min k (applyFilters
        (combineResults (denseRetrieval B st qa.original_query (k * 2))
          (sparseRetrieval B st qa.original_query (k * 2))) qa).length ∧
    (retrieve B st qa (some k)).length ≤ k ∧
    ((applyFilters
        (combineResults (denseRetrieval B st qa.original_query (k * 2))
          (sparseRetrieval B st qa.original_query (k * 2))) qa).length ≤ k →
      retrieve B st qa (some k) =
        (rerank B qa.original_query
          (applyFilters
            (combineResults (denseRetrieval B st qa.original_query (k * 2))
              (sparseRetrieval B st qa.original_query (k * 2))) qa)).map
          (fun p => { content := p.1.page_content
                      population := p.1.population
                      relevance_score := p.2
                      rerank_score := some p.2 })) := by
  have hkk : effectiveK (some k) = k := by simp [effectiveK, hk]
  have hfc : filteredCandidates B st qa (effectiveK (some k)) =
      applyFilters
        (combineResults (denseRetrieval B st qa.original_query (k * 2))
          (sparseRetrieval B st qa.original_query (k * 2))) qa := by
    rw [hkk]; rfl
  refine ⟨?_, ?_, ?_⟩
  · rw [retrieve_eq, hfc, hkk, List.length_map, List.length_take, rerank_length]
  · rw [retrieve_eq, hkk, List.length_map, List.length_take]
    exact min_le_left _ _
  · intro hle
    rw [retrieve_eq, hfc, hkk, List.take_of_length_le]
    rw [rerank_length]
    exact hle

/-- Counterexample to C6 as claimed for a requested `k = 0`: Python's
`k = k or settings.max_retrieval_docs` treats `0` as unset and falls back
to the default of 10, so against a one-chunk corpus `retrieve` returns one
result — more than the zero requested. -/
theorem retrieve_topk_C6_counterexample :
    (retrieve B0
        (SystemState.mk
          [PineEntry.mk "A1" [1]
            (Doc.mk "HIV is a retrovirus" (some "general") "A1")]
          [Doc.mk "HIV is a retrovirus" (some "general") "A1"])
        (QueryAnalysis.mk "What is HIV?" none) (some 0)).length = 1 ∧
    ¬((retrieve B0
        (SystemState.mk
          [PineEntry.mk "A1" [1]
            (Doc.mk "HIV is a retrovirus" (some "general") "A1")]
          [Doc.mk "HIV is a retrovirus" (some "general") "A1"])
        (QueryAnalysis.mk "What is HIV?" none) (some 0)).length ≤ 0) := by
  constructor
  · decide
  · decide

/-- Witness for C6 (amended) at `k = 1` on the empty system. -/
theorem retrieve_topk_C6_witness :
    (retrieve B0 (SystemState.mk [] []) (QueryAnalysis.mk "What is HIV?" none)
        (some 1)).length ≤ 1 :=
  (retrieve_topk_C6 B0 (SystemState.mk [] [])
    (QueryAnalysis.mk "What is HIV?" none) 1 one_ne_zero).2.1

/-- C7: against a state whose corpus is empty (`documentCount() == 0`, the
two indices in lockstep as the data-model invariant requires, so the
vector store is empty too), `retrieve` returns `[]` for every query and
every `k`, with no error (every function here is total): the lexical path
short-circuits to `[]` while `self.bm25` is unset, the dense path finds no
matches, and fusion, filtering and reranking all map empty to empty. -/
theorem retrieve_empty_corpus_C7 (B : Backend) (qa : QueryAnalysis)
    (k : Option ℕ) (st : SystemState)
    (hdocs : st.documents = []) (hstore : st.pineconeStore = []) :
    getDocumentCount st = 0 ∧
    (∀ q kq, sparseRetrieval B st q kq = []) ∧
    (∀ q kq, denseRetrieval B st q kq = []) ∧
    retrieve B st qa k = [] ∧
    combineResults [] [] = [] ∧
    (∀ qa2, applyFilters [] qa2 = []) ∧
    (∀ q, rerank B q [] = []) := by
  obtain ⟨ps, ds⟩ := st
  simp only [SystemState.mk.injEq] at hdocs hstore
  subst hdocs
  subst hstore
  refine ⟨rfl, ?_, ?_, ?_, rfl, fun qa2 => rfl, fun q => rfl⟩
  · intro q kq
    rfl
  · intro q kq
    simp [denseRetrieval, similaritySearchWithScore, pineconeQuery, sortDesc]
  · rw [retrieve_eq]
    have h1 : filteredCandidates B (SystemState.mk [] []) qa (effectiveK k) = [] := by
      unfold filteredCandidates denseRetrieval similaritySearchWithScore pineconeQuery
        sparseRetrieval
      simp [sortDesc, combineResults, addCandidates, applyFilters]
    rw [h1, show rerank B qa.original_query [] = [] from rfl, List.take_nil,
      List.map_nil]

/-- Witness for C7 on the concrete empty system. -/
theorem retrieve_empty_corpus_C7_witness :
    retrieve B0 (SystemState.mk [] []) (QueryAnalysis.mk "What is HIV?" none)
        none = [] :=
  (retrieve_empty_corpus_C7 B0 (QueryAnalysis.mk "What is HIV?" none) none
    (SystemState.mk [] []) rfl rfl).2.2.2.1

/-! ### Ingestion: re-adding batches and mismatched batches (claims C5, C8) -/

/-- Counterexample to C5 as claimed: adding the one-chunk batch
`["HIV is a retrovirus"]` (chunk id `A1`) twice leaves `documentCount()`
at `2`, not at the `1` produced by a single add — `add_documents` extends
`self.documents` unconditionally, so the count is not idempotent. -/
theorem add_documents_count_C5_counterexample :
    getDocumentCount
        (addDocuments B0
          (addDocuments B0 (SystemState.mk [] [])
            [Doc.mk "HIV is a retrovirus" (some "general") "A1"])
          [Doc.mk "HIV is a retrovirus" (some "general") "A1"]) ≠
      getDocumentCount
        (addDocuments B0 (SystemState.mk [] [])
          [Doc.mk "HIV is a retrovirus" (some "general") "A1"]) := by
  decide

/-- C5 amended: re-adding a batch is keyed-overwrite idempotent only on the
Pinecone side; `documentCount()` counts the BM25 document list, which grows
by the batch size on every call — adding the same batch twice yields the
once-added count plus the batch length, not the once-added count. -/
theorem add_documents_count_C5 (B : Backend) (st : SystemState)
    (batch : List Doc) :
    getDocumentCount (addDocuments B (addDocuments B st batch) batch) =
      getDocumentCount (addDocuments B st batch) + batch.length := by
  simp [getDocumentCount, addDocuments, Nat.add_assoc]

/-- `zip` truncates to the common length. -/
theorem zip_eq_zip_take {α β : Type} (l₁ : List α) (l₂ : List β) :
    l₁.zip l₂ =
      (l₁.take (min l₁.length l₂.length)).zip
        (l₂.take (min l₁.length l₂.length)) := by
  induction l₁ generalizing l₂ with
  | nil => simp
  | cons a as ih =>
    cases l₂ with
    | nil => simp
    | cons b bs =>
      simp only [List.zip_cons_cons, List.length_cons, Nat.succ_min_succ,
        List.take_succ_cons]
      rw [ih bs]

/-- Counterexample to C8 as claimed: a two-document batch with a single
embedding is not rejected — `add_documents` zips the lists, silently drops
the second document, and upserts the first, mutating the store. -/
theorem pinecone_mismatch_C8_counterexample :
    [Doc.mk "HIV is a retrovirus" (some "general") "A1",
     Doc.mk "ART dosing in pregnancy" (some "pregnant") "B1"].length ≠
      [[(1 : ℚ)]].length ∧
    pineconeAddDocuments B0 []
        [Doc.mk "HIV is a retrovirus" (some "general") "A1",
         Doc.mk "ART dosing in pregnancy" (some "pregnant") "B1"]
        [[(1 : ℚ)]] ≠ [] ∧
    (pineconeAddDocuments B0 []
        [Doc.mk "HIV is a retrovirus" (some "general") "A1",
         Doc.mk "ART dosing in pregnancy" (some "pregnant") "B1"]
        [[(1 : ℚ)]]).length = 1 := by
  refine ⟨by decide, ?_, by decide⟩
  decide

/-- C8 amended: on a batch whose chunk and vector lists differ in length,
`PineconeVectorStore.add_documents` raises no error and performs no
validation: it behaves exactly as if called on the two lists truncated to
their common length, upserting `min` of the two lengths entries. -/
theorem pinecone_add_truncates_C8 (B : Backend) (store : List PineEntry)
    (documents : List Doc) (embeddings : List (List ℚ))
    (_h : documents.length ≠ embeddings.length) :
    pineconeAddDocuments B store documents embeddings =
      pineconeAddDocuments B store
        (documents.take (min documents.length embeddings.length))
        (embeddings.take (min documents.length embeddings.length)) ∧
    ((documents.zip embeddings).map
        (fun p => PineEntry.mk (vectorId B p.1) p.2 p.1)).length =
      min documents.length embeddings.length := by
  constructor
  · unfold pineconeAddDocuments
    rw [← zip_eq_zip_take]
  · rw [List.length_map, List.length_zip]

/-- Witness for C8 (amended) at the concrete mismatched batch. -/
theorem pinecone_add_truncates_C8_witness :
    (([Doc.mk "HIV is a retrovirus" (some "general") "A1",
       Doc.mk "ART dosing in pregnancy" (some "pregnant") "B1"].zip
        [[(1 : ℚ)]]).map
      (fun p => PineEntry.mk (vectorId B0 p.1) p.2 p.1)).length =
      min
        [Doc.mk "HIV is a retrovirus" (some "general") "A1",
         Doc.mk "ART dosing in pregnancy" (some "pregnant") "B1"].length
        [[(1 : ℚ)]].length :=
  (pinecone_add_truncates_C8 B0 []
    [Doc.mk "HIV is a retrovirus" (some "general") "A1",
     Doc.mk "ART dosing in pregnancy" (some "pregnant") "B1"]
    [[(1 : ℚ)]] (by decide)).2

/-! ### Metadata flattening round trip (claim C9) -/

/-- The `gm_fields` block as it comes out of `gmFields ∘ flatten`: the
nested guideline metadata with the namespace stripped again. -/
def gmStripped (gm : GuidelineMetadata) : List (String × MetaValue) :=
  [("guideline_name", .str gm.guideline_name),
   ("organization", .str gm.organization),
   ("publication_year", .int gm.publication_year)]
  ++ optStr "version" gm.version
  ++ optStr "country" gm.country
  ++ optStr "specialty" gm.specialty
  ++ optStr "last_updated" gm.last_updated

/-- The flat metadata left after the `guideline_metadata_*` keys are
removed on the read path. -/
def chunkPart (cm : ChunkMetadata) : List (String × MetaValue) :=
  [("guideline", .str cm.guideline), ("section", .str cm.«section»)]
  ++ optStr "subsection" cm.subsection
  ++ [("population", .str cm.population.value)]
  ++ optInt "page_number" cm.page_number
  ++ [("chunk_id", .str cm.chunk_id)]

/-- Stripping the namespace undoes the flattening of the nested block. -/
theorem gmFields_flatten (cm : ChunkMetadata) :
    gmFields (flattenChunkMetadata cm) = gmStripped cm.guideline_metadata := by
  obtain ⟨g, sec, sub, pop, pg, cid, gn, org, py, ver, cty, sp, lu⟩ := cm
  cases sub <;> cases pg <;> cases ver <;> cases cty <;> cases sp <;> cases lu <;> rfl

/-- Filtering the namespace out leaves the chunk-level entries. -/
theorem chunkFilter_flatten (cm : ChunkMetadata) :
    (flattenChunkMetadata cm).filter
        (fun kv => ! strStartsWith kv.1 "guideline_metadata_") = chunkPart cm := by
  obtain ⟨g, sec, sub, pop, pg, cid, gn, org, py, ver, cty, sp, lu⟩ := cm
  cases sub <;> cases pg <;> cases ver <;> cases cty <;> cases sp <;> cases lu <;> rfl

theorem lookup_gmStripped_name (gm : GuidelineMetadata) :
    lookupMeta (gmStripped gm) "guideline_name" = some (.str gm.guideline_name) := rfl

theorem lookup_gmStripped_org (gm : GuidelineMetadata) :
    lookupMeta (gmStripped gm) "organization" = some (.str gm.organization) := rfl

theorem lookup_gmStripped_year (gm : GuidelineMetadata) :
    lookupMeta (gmStripped gm) "publication_year" = some (.int gm.publication_year) := rfl

theorem lookup_gmStripped_version (gm : GuidelineMetadata) :
    lookupMeta (gmStripped gm) "version" = gm.version.map MetaValue.str := by
  obtain ⟨gn, org, py, ver, cty, sp, lu⟩ := gm
  cases ver <;> cases cty <;> cases sp <;> cases lu <;> rfl

theorem lookup_gmStripped_country (gm : GuidelineMetadata) :
    lookupMeta (gmStripped gm) "country" = gm.country.map MetaValue.str := by
  obtain ⟨gn, org, py, ver, cty, sp, lu⟩ := gm
  cases ver <;> cases cty <;> cases sp <;> cases lu <;> rfl

theorem lookup_gmStripped_specialty (gm : GuidelineMetadata) :
    lookupMeta (gmStripped gm) "specialty" = gm.specialty.map MetaValue.str := by
  obtain ⟨gn, org, py, ver, cty, sp, lu⟩ := gm
  cases ver <;> cases cty <;> cases sp <;> cases lu <;> rfl

theorem lookup_gmStripped_last_updated (gm : GuidelineMetadata) :
    lookupMeta (gmStripped gm) "last_updated" = gm.last_updated.map MetaValue.str := by
  obtain ⟨gn, org, py, ver, cty, sp, lu⟩ := gm
  cases ver <;> cases cty <;> cases sp <;> cases lu <;> rfl

theorem lookup_chunkPart_guideline (cm : ChunkMetadata) :
    lookupMeta (chunkPart cm) "guideline" = some (.str cm.guideline) := rfl

theorem lookup_chunkPart_section (cm : ChunkMetadata) :
    lookupMeta (chunkPart cm) "section" = some (.str cm.«section») := rfl

theorem lookup_chunkPart_subsection (cm : ChunkMetadata) :
    lookupMeta (chunkPart cm) "subsection" = cm.subsection.map MetaValue.str := by
  obtain ⟨g, sec, sub, pop, pg, cid, gmt⟩ := cm
  cases sub <;> cases pg <;> rfl

theorem lookup_chunkPart_population (cm : ChunkMetadata) :
    lookupMeta (chunkPart cm) "population" = some (.str cm.population.value) := by
  obtain ⟨g, sec, sub, pop, pg, cid, gmt⟩ := cm
  cases sub <;> rfl

theorem lookup_chunkPart_page_number (cm : ChunkMetadata) :
    lookupMeta (chunkPart cm) "page_number" = cm.page_number.map MetaValue.int := by
  obtain ⟨g, sec, sub, pop, pg, cid, gmt⟩ := cm
  cases sub <;> cases pg <;> rfl

theorem lookup_chunkPart_chunk_id (cm : ChunkMetadata) :
    lookupMeta (chunkPart cm) "chunk_id" = some (.str cm.chunk_id) := by
  obtain ⟨g, sec, sub, pop, pg, cid, gmt⟩ := cm
  cases sub <;> cases pg <;> rfl

/-- A truthy (non-empty) string value survives Python `or`. -/
theorem pyOrV_str (s : String) (hs : s ≠ "") (fb : MetaValue) :
    pyOrV (some (.str s)) fb = .str s := by
  simp [pyOrV, MetaValue.truthy, hs]

/-- A truthy (non-zero) integer value survives Python `or`. -/
theorem pyOrV_int (n : Int) (hn : n ≠ 0) (fb : MetaValue) :
    pyOrV (some (.int n)) fb = .int n := by
  simp [pyOrV, MetaValue.truthy, hn]

/-- The empty string is falsy: Python `or` takes the fallback. -/
theorem pyOrV_empty_str (fb : MetaValue) : pyOrV (some (.str "")) fb = fb := rfl

theorem parseLastUpdated_map (o : Option String) (h : ∀ s, o = some s → s ≠ "") :
    parseLastUpdated (o.map MetaValue.str) = o := by
  cases o with
  | none => rfl
  | some s =>
    have hs : s ≠ "" := h s rfl
    simp [parseLastUpdated, MetaValue.truthy, MetaValue.toStr, hs]

theorem parseOptStrField_map (o : Option String) :
    parseOptStrField (o.map MetaValue.str) = o := by
  cases o <;> rfl

theorem parseOptIntField_map (o : Option Int) :
    parseOptIntField (o.map MetaValue.int) = o := by
  cases o <;> rfl

theorem map_str_toStr (o : Option String) :
    (o.map MetaValue.str).map MetaValue.toStr = o := by
  cases o <;> rfl

/-- The enum coercion inverts taking the value. -/
theorem ofValue_value (p : PopulationType) :
    PopulationType.ofValue p.value = some p := by
  cases p <;> rfl

theorem parsePopulation_chunkPart (cm : ChunkMetadata) :
    parsePopulation (chunkPart cm) = some cm.population := by
  unfold parsePopulation
  rw [lookup_chunkPart_population]
  exact ofValue_value _

/-- The nested guideline metadata is reconstructed exactly when the
top-level `guideline` matches (or is empty), the name and organization are
non-empty, the year is non-zero and the ISO timestamp is non-empty. -/
theorem rehydrateGuideline_roundtrip (y : Int) (cm : ChunkMetadata)
    (hg : cm.guideline = cm.guideline_metadata.guideline_name ∨ cm.guideline = "")
    (hn : cm.guideline_metadata.guideline_name ≠ "")
    (ho : cm.guideline_metadata.organization ≠ "")
    (hy : cm.guideline_metadata.publication_year ≠ 0)
    (hl : ∀ s, cm.guideline_metadata.last_updated = some s → s ≠ "") :
    rehydrateGuideline y (chunkPart cm) (gmStripped cm.guideline_metadata) =
      cm.guideline_metadata := by
  obtain ⟨g, sec, sub, pop, pg, cid, gn, org, py, ver, cty, sp, lu⟩ := cm
  simp only at hg hn ho hy hl
  unfold rehydrateGuideline
  rw [lookup_chunkPart_guideline, lookup_gmStripped_name, lookup_gmStripped_org,
      lookup_gmStripped_year, lookup_gmStripped_version, lookup_gmStripped_country,
      lookup_gmStripped_specialty, lookup_gmStripped_last_updated]
  simp only
  have e2 : pyOrV (some (MetaValue.str org)) (MetaValue.str "Unknown") =
      MetaValue.str org := pyOrV_str org ho _
  have e3 : pyOrV (some (MetaValue.int py)) (MetaValue.int y) =
      MetaValue.int py := pyOrV_int py hy _
  have e0 : pyOrV (some (MetaValue.str g))
      (pyOrV (some (MetaValue.str gn)) (MetaValue.str "Unknown Guideline")) =
      MetaValue.str gn := by
    rcases hg with hg | hg
    · rw [hg]
      exact pyOrV_str gn hn _
    · rw [hg, pyOrV_empty_str]
      exact pyOrV_str gn hn _
  rw [e0, e2, e3, map_str_toStr, map_str_toStr, map_str_toStr,
      parseLastUpdated_map lu hl]
  rfl

/-- Parsing the chunk-level entries back rebuilds the chunk metadata around
any given nested guideline metadata. -/
theorem parse_chunkPart (cm : ChunkMetadata) (gmeta : GuidelineMetadata) :
    parseChunkMetadata (chunkPart cm) gmeta =
      some { cm with guideline_metadata := gmeta } := by
  unfold parseChunkMetadata
  rw [lookup_chunkPart_guideline, lookup_chunkPart_section,
      lookup_chunkPart_chunk_id, parsePopulation_chunkPart,
      lookup_chunkPart_subsection, lookup_chunkPart_page_number,
      parseOptStrField_map, parseOptIntField_map]

/-- Counterexample to C9 as claimed: for the chunk metadata whose top-level
`guideline` is `"A"` while the nested `guideline_name` is `"B"`, the read
path rebuilds `guideline_name` from the top-level `guideline` value, so
flatten-then-rehydrate does not return the original value. -/
theorem metadata_roundtrip_C9_counterexample :
    rehydrateMetadata 2025
        (flattenChunkMetadata
          (ChunkMetadata.mk "A" "s" none PopulationType.general none "c"
            (GuidelineMetadata.mk "B" "O" 2020 none none none none))) ≠
      some (ChunkMetadata.mk "A" "s" none PopulationType.general none "c"
        (GuidelineMetadata.mk "B" "O" 2020 none none none none)) := by
  decide

/-- C9 amended: flatten-then-rehydrate returns the original `ChunkMetadata`
(with its nested `GuidelineMetadata`) provided the top-level `guideline`
field equals the nested `guideline_name` (or is empty), the name and the
organization are non-empty, the publication year is non-zero and a present
`last_updated` timestamp is a non-empty string; otherwise the read path
substitutes the top-level `guideline` or the defaults (`"Unknown
Guideline"`, `"Unknown"`, the current year) into the nested record. -/
theorem metadata_roundtrip_C9 (y : Int) (cm : ChunkMetadata)
    (hg : cm.guideline = cm.guideline_metadata.guideline_name ∨ cm.guideline = "")
    (hn : cm.guideline_metadata.guideline_name ≠ "")
    (ho : cm.guideline_metadata.organization ≠ "")
    (hy : cm.guideline_metadata.publication_year ≠ 0)
    (hl : ∀ s, cm.guideline_metadata.last_updated = some s → s ≠ "") :
    rehydrateMetadata y (flattenChunkMetadata cm) = some cm := by
  show parseChunkMetadata
      ((flattenChunkMetadata cm).filter
        (fun kv => ! strStartsWith kv.1 "guideline_metadata_"))
      (rehydrateGuideline y
        ((flattenChunkMetadata cm).filter
          (fun kv => ! strStartsWith kv.1 "guideline_metadata_"))
        (gmFields (flattenChunkMetadata cm))) = some cm
  rw [gmFields_flatten, chunkFilter_flatten,
      rehydrateGuideline_roundtrip y cm hg hn ho hy hl, parse_chunkPart]

/-- Witness for C9 (amended) on a concrete well-formed metadata value. -/
theorem metadata_roundtrip_C9_witness :
    rehydrateMetadata 2025
        (flattenChunkMetadata
          (ChunkMetadata.mk "WHO HIV Guidelines" "page_1" (some "intro")
            PopulationType.pregnant (some 3) "WHO HIV Guidelines_page_1_0"
            (GuidelineMetadata.mk "WHO HIV Guidelines" "WHO" 2021 (some "v2")
              (some "CH") (some "infectious disease")
              (some "2021-07-16T00:00:00")))) =
      some (ChunkMetadata.mk "WHO HIV Guidelines" "page_1" (some "intro")
        PopulationType.pregnant (some 3) "WHO HIV Guidelines_page_1_0"
        (GuidelineMetadata.mk "WHO HIV Guidelines" "WHO" 2021 (some "v2")
          (some "CH") (some "infectious disease")
          (some "2021-07-16T00:00:00"))) :=
  metadata_roundtrip_C9 2025 _ (Or.inl rfl) (by decide) (by decide) (by decide)
    (by intro s hs; cases hs; decide)

end MedGuide
